import Mathlib

/-!
# SDKclient session client (`src/SDKclient/src/client.cpp`)

A shallow embedding of the session client: the generic-envelope parsing rule,
the session start and stop exchanges, construction and destruction, the
per-record field mapping of `sendPeople` and the FIFO reconciliation of pending
responses (`checkAsyncResponses`).

Conventions.
* The transport (`Connection`), the JSON codec (`JsonParser`) and the string
  coercion helpers (`Util`) are collaborators whose code is not part of
  `client.cpp`; they are taken as parameters (`Connection σ`, `Codec`, `Util`).
* A `Connection::Response` object is identified by a handle (a natural number,
  the order of creation).  What `isReady()`, `isOk()` and `rawResponse` give for
  a handle is read from the transport state; it changes only through transport
  calls (`request`, `receive`).
* A vector read out of range has no defined result in C++; the field mapping
  and `sendPeople` give `none` there.
* Diagnostic output on `std::cerr` is not modelled.
* Fields of `Client` below the line "ghost" record what the client did
  (requests attempted, envelopes created and released, results of
  reconciliation); the code never reads them.
-/

namespace SDKclient

/-! ## Collaborators -/

/-- Snapshot of a `Connection::Response`: `isReady()`, `isOk()`, `rawResponse`. -/
structure Response where
  isReady : Bool
  isOk : Bool
  rawResponse : String
  deriving DecidableEq, Repr

/-- `Connection::TRequest`: a string-keyed map of string values, kept as an
association list with at most one entry per key. -/
abbrev TRequest := List (String × String)

/-- `request[ key ] = value` on a `TRequest`: overwrite the entry of `key` when
there is one, insert it otherwise. -/
def TRequest.set : TRequest → String → String → TRequest
  | [], k, v => [(k, v)]
  | (k', v') :: rest, k, v =>
    if k' = k then (k, v) :: rest else (k', v') :: TRequest.set rest k v

/-- Whether a request carries the field `key`. -/
def TRequest.containsKey (r : TRequest) (key : String) : Bool :=
  (r.lookup key).isSome

/-- Modelled from the spec: `JsonParser::TMembers` (declared in `util/parsers.h`,
not part of `client.cpp`), the generic key/value structure a parsed body yields. -/
abbrev TMembers := List (String × String)

/-- `jsonMembers.containsKey( param )`. -/
def TMembers.containsKey (m : TMembers) (param : String) : Bool :=
  (m.lookup param).isSome

/-- `jsonMembers[ param ]`; only read after `containsKey` answered true. -/
def TMembers.index (m : TMembers) (param : String) : String :=
  (m.lookup param).getD ""

/-- Modelled from the spec: the protocol codec (`JsonParser::parseJson`,
`Util::getValueFromString`), whose code is not part of `client.cpp`.
`parseJson` yields the members of a body or fails; a typed read yields a value
or fails (spec: "typed value or absence"), and a failed read leaves the
destination untouched. -/
structure Codec where
  parseJson : String → Option TMembers
  intFromString : String → Option Int
  stringFromString : String → Option String

/-- The transport, `Connection`, over its state `σ`.
`request st url params handle blocking` is
`request( url, params, response, blocking )` for the response object `handle`:
it gives the new transport state and whether the call was issued.
`receive` is `receive( NULL, false )`, one non-blocking pump.
`response st handle` is what the response object `handle` holds in state `st`. -/
structure Connection (σ : Type) where
  request : σ → String → TRequest → Nat → Bool → σ × Bool
  receive : σ → σ
  response : σ → Nat → Response

/-- One call of `Connection::request` as the client made it. -/
structure RequestRecord where
  url : String
  params : TRequest
  handle : Nat
  blocking : Bool
  issued : Bool
  deriving DecidableEq, Repr

/-! ## Endpoint constants -/

def KServerURL : String := "http://localhost:8000"
def KStartSessionURL : String := "/start_session/"
def KSendPersonURL : String := "/person_detection/"
/-- The character of one hexadecimal digit, lower case as `std::hex` prints it. -/
def hexDigit (d : Nat) : Char :=
  if d < 10 then Char.ofNat (48 + d) else Char.ofNat (87 + d)

/-- Hexadecimal digits of `n`, most significant first, in front of `acc`;
`fuel` bounds the number of digits. -/
def hexDigitsAux : Nat → Nat → List Char → List Char
  | 0, _, acc => acc
  | fuel + 1, n, acc =>
    if n < 16 then hexDigit n :: acc
    else hexDigitsAux fuel (n / 16) (hexDigit (n % 16) :: acc)

/-- What `stream << std::hex << std::setw( 2 ) << std::setfill( '0' ) << v` appends
for an `int` `v`: the hexadecimal form of `v` read as an unsigned 32-bit value,
padded on the left with `0` to two characters. -/
def hexField (v : Int) : List Char :=
  let digits := hexDigitsAux 8 (v % 4294967296).toNat []
  List.replicate (2 - digits.length) '0' ++ digits

/-- `getColorString`; `none` when `color` has fewer than three components
(the C++ code then reads out of range). -/
def getColorString (color : List Int) : Option String := do
  let c0 ← color[0]?
  let c1 ← color[1]?
  let c2 ← color[2]?
  some (String.mk (hexField c0 ++ hexField c1 ++ hexField c2))

/-- Modelled from the spec: the numeric helpers the field mapping uses and
`client.cpp` does not define. `getStringFromInt` and `getStringFromFloat` are
`Util::getStringFromValue` at `int` and at `float`; `toPercent x` is
`static_cast<int>( x * 100.0f )`, the float product truncated to an `int`. -/
structure Util where
  getStringFromInt : Int → String
  getStringFromFloat : ℚ → String
  toPercent : ℚ → Int

/-- `cv::Rect`. -/
structure Rect where
  x : Int
  y : Int
  width : Int
  height : Int
  deriving DecidableEq

/-- `cv::Point`. -/
structure Point where
  x : Int
  y : Int
  deriving DecidableEq

/-- Modelled from the spec: a detection record (`Person`, an external value
class), by its getters. A finite `float` is kept as the rational it denotes. -/
structure Person where
  getID : String
  getAge : Int
  getGender : ℚ
  getMood : ℚ
  getFaceRect : Rect
  getHeadYaw : ℚ
  getHeadPitch : ℚ
  getRightEye : Point
  getLeftEye : Point
  getHeadRoll : ℚ
  getAttentionSpan : Int
  getEmotions : List ℚ
  getClothingColors : List (List Int)
  deriving DecidableEq

/-! ## Generic envelope parsing -/

/-- `getJsonParam<T>`: the field must be present and must convert. `conv` is
`Util::getValueFromString` at the type read. -/
def getJsonParam {T : Type} (conv : String → Option T) (jsonMembers : TMembers)
    (param : String) : Option T :=
  if !jsonMembers.containsKey param then none
  else
    match conv (jsonMembers.index param) with
    | none => none
    | some result => some result

/-- `parseGenericResponse`: the boolean result and the members left in the
caller's (fresh) `jsonMembers`. -/
def parseGenericResponse (C : Codec) (jsonText : String) : Bool × TMembers :=
  match C.parseJson jsonText with
  | none => (false, [])
  | some jsonMembers =>
    match getJsonParam C.intFromString jsonMembers "code" with
    | none => (false, jsonMembers)
    | some code =>
      -- the description is read only to be logged
      let _tmpDescription :=
        if code ≠ 0 then getJsonParam C.stringFromString jsonMembers "description" else none
      (decide (code = 0), jsonMembers)

/-! ## The client -/

/-- State of a `Client` over a transport with state `σ`. -/
structure Client (σ : Type) where
  mConnection : σ
  mSessionKey : String
  mSessionStarted : Bool
  /-- Queue of pending response handles, head first. -/
  serverResponses : List Nat
  -- ghost
  /-- Number of response objects created so far; the next handle. -/
  created : Nat
  /-- Handles of heap responses released (`delete`) so far, oldest first. -/
  released : List Nat
  /-- Calls of `Connection::request` so far, oldest first. -/
  requests : List RequestRecord
  /-- Results of the calls of `checkAsyncResponses` so far, oldest first. -/
  reconciled : List Bool

/-- `Client::parseSendPerson`. -/
def Client.parseSendPerson (C : Codec) (response : String) : Bool :=
  if !(parseGenericResponse C response).1 then false else true

/-- `Client::parseStartSession`: the result and the new value of `mSessionKey`. -/
def Client.parseStartSession (C : Codec) (mSessionKey : String) (response : String) :
    Bool × String :=
  let r := parseGenericResponse C response
  if !r.1 then (false, mSessionKey)
  else
    match getJsonParam C.stringFromString r.2 "session_key" with
    | none => (false, mSessionKey)
    | some key => (true, key)

/-- The loop of `Client::checkAsyncResponses` over the queue, with the local
`serverSaysStop` and the handles released so far; gives the returned flag, the
queue left and the handles released. `view` reads a response object. -/
def checkAsyncLoop (C : Codec) (view : Nat → Response) :
    Bool → List Nat → List Nat → Bool × List Nat × List Nat
  | _, [], rel => (true, [], rel)
  | serverSaysStop, response :: rest, rel =>
    if (view response).isReady then
      let serverSaysStop' :=
        if (view response).isOk then
          !Client.parseSendPerson C (view response).rawResponse
        else serverSaysStop
      if serverSaysStop' then (false, rest, rel ++ [response])
      else checkAsyncLoop C view serverSaysStop' rest (rel ++ [response])
    else (true, response :: rest, rel)

/-- `Client::checkAsyncResponses`. -/
def Client.checkAsyncResponses {σ : Type} (T : Connection σ) (C : Codec) (c : Client σ) :
    Bool × Client σ :=
  let r := checkAsyncLoop C (T.response c.mConnection) false c.serverResponses c.released
  (r.1, { c with serverResponses := r.2.1, released := r.2.2,
                 reconciled := c.reconciled ++ [r.1] })

/-- The field mapping in the loop body of `Client::sendPeople` (the assignments
to `sendPersonRequest` for one person with a non-empty identifier), applied
to the request map as the previous iteration left it. `none` when a vector is
read out of range. -/
def mapFields (U : Util) (sendPersonRequest : TRequest) (person : Person) :
    Option TRequest := do
  let r := sendPersonRequest.set "sdk_name" person.getID
  let r := r.set "age" (U.getStringFromInt person.getAge)
  let r := r.set "gender" (U.getStringFromInt (U.toPercent person.getGender))
  let r := r.set "mood" (U.getStringFromInt (U.toPercent person.getMood))
  let tmpFacePosition := person.getFaceRect
  let r := r.set "facePosition_x" (U.getStringFromInt tmpFacePosition.x)
  let r := r.set "facePosition_y" (U.getStringFromInt tmpFacePosition.y)
  let r := r.set "facePosition_w" (U.getStringFromInt tmpFacePosition.width)
  let r := r.set "facePosition_h" (U.getStringFromInt tmpFacePosition.height)
  let r := r.set "headYaw" (U.getStringFromFloat person.getHeadYaw)
  let r := r.set "headPitch" (U.getStringFromFloat person.getHeadPitch)
  let tmpEyeLocation := person.getRightEye
  let r := r.set "rightEye_x" (U.getStringFromInt tmpEyeLocation.x)
  let r := r.set "rightEye_y" (U.getStringFromInt tmpEyeLocation.y)
  let tmpEyeLocation := person.getLeftEye
  let r := r.set "leftEye_x" (U.getStringFromInt tmpEyeLocation.x)
  let r := r.set "leftEye_y" (U.getStringFromInt tmpEyeLocation.y)
  let r := r.set "head_roll" (U.getStringFromFloat person.getHeadRoll)
  let r := r.set "attention_span" (U.getStringFromInt person.getAttentionSpan)
  let tmpEmotions := person.getEmotions
  let r := r.set "neutral" "0"
  let r := r.set "happy" (U.getStringFromInt (U.toPercent (← tmpEmotions[0]?)))
  let r := r.set "surprised" (U.getStringFromInt (U.toPercent (← tmpEmotions[1]?)))
  let r := r.set "angry" (U.getStringFromInt (U.toPercent (← tmpEmotions[2]?)))
  let r := r.set "disgusted" (U.getStringFromInt (U.toPercent (← tmpEmotions[3]?)))
  let r := r.set "afraid" (U.getStringFromInt (U.toPercent (← tmpEmotions[4]?)))
  let r := r.set "sad" (U.getStringFromInt (U.toPercent (← tmpEmotions[5]?)))
  let tmpClothColors := person.getClothingColors
  if !tmpClothColors.isEmpty then
    let r := r.set "ClothesColors_1" (← getColorString (← tmpClothColors[0]?))
    let r := r.set "ClothesColors_1" (← getColorString (← tmpClothColors[1]?))
    let r := r.set "ClothesColors_1" (← getColorString (← tmpClothColors[2]?))
    some r
  else
    some r

/-- The loop of `Client::sendPeople` over the remaining people, with the locals
`sendPersonRequest` and `allSent`. `none` when the field mapping reads a
vector out of range. -/
def sendPeopleLoop {σ : Type} (T : Connection σ) (C : Codec) (U : Util) :
    List Person → TRequest → Bool → Client σ → Option (Bool × Client σ)
  | [], _, allSent, c => some (allSent, c)
  | person :: rest, sendPersonRequest, allSent, c =>
    if person.getID.isEmpty then
      sendPeopleLoop T C U rest sendPersonRequest allSent c
    else
      match mapFields U sendPersonRequest person with
      | none => none
      | some request =>
        let serverResponse := c.created
        let url := KServerURL ++ KSendPersonURL
        let sent := T.request c.mConnection url request serverResponse false
        let c1 : Client σ :=
          { c with mConnection := sent.1, created := c.created + 1,
                   requests := c.requests ++ [⟨url, request, serverResponse, false, sent.2⟩] }
        if sent.2 then
          let c2 : Client σ := { c1 with serverResponses := c1.serverResponses ++ [serverResponse] }
          let c3 : Client σ := { c2 with mConnection := T.receive c2.mConnection }
          let checked := Client.checkAsyncResponses T C c3
          sendPeopleLoop T C U rest request (allSent && checked.1) checked.2
        else
          sendPeopleLoop T C U rest request false c1

/-- `Client::sendPeople`. -/
def Client.sendPeople {σ : Type} (T : Connection σ) (C : Codec) (U : Util) (c : Client σ)
    (people : List Person) (frameNumber : Int) : Option (Bool × Client σ) :=
  let sendPersonRequest := TRequest.set [] "session_key" c.mSessionKey
  let sendPersonRequest := sendPersonRequest.set "frame" (U.getStringFromInt frameNumber)
  sendPeopleLoop T C U people sendPersonRequest true c

/-- `Client::startSession`. -/
def Client.startSession {σ : Type} (T : Connection σ) (C : Codec) (c : Client σ)
    (cameraName : String) : Bool × Client σ :=
  let serverResponse := c.created
  let startSessionRequest := TRequest.set [] "source_name" cameraName
  let url := KServerURL ++ KStartSessionURL
  let sent := T.request c.mConnection url startSessionRequest serverResponse true
  let c1 : Client σ :=
    { c with mConnection := sent.1, created := c.created + 1,
             requests := c.requests ++ [⟨url, startSessionRequest, serverResponse, true, sent.2⟩] }
  if sent.2 then
    let response := T.response sent.1 serverResponse
    if !response.isReady || !response.isOk then (false, c1)
    else
      let parsed := Client.parseStartSession C c1.mSessionKey response.rawResponse
      (parsed.1, { c1 with mSessionKey := parsed.2 })
  else (false, c1)

/-- `Client::Client`: `connection` is the state of the new `Connection` after
`init( "", 0, "", "" )`. -/
def Client.construct {σ : Type} (T : Connection σ) (C : Codec) (connection : σ)
    (cameraName : String) : Client σ :=
  let c0 : Client σ :=
    { mConnection := connection, mSessionKey := "", mSessionStarted := false,
      serverResponses := [], created := 0, released := [], requests := [], reconciled := [] }
  let started := Client.startSession T C c0 cameraName
  { started.2 with mSessionStarted := started.1 }

/-- The clean-up loop of `Client::~Client`: pops and deletes every pending
response; gives the queue left and the handles released. -/
def cleanUpResponses : List Nat → List Nat → List Nat × List Nat
  | [], rel => ([], rel)
  | response :: rest, rel => cleanUpResponses rest (rel ++ [response])

/-- A stop signal: the envelope is ok and its body fails `parseSendPerson`. -/
def stopSignal (C : Codec) (view : Nat → Response) (h : Nat) : Bool :=
  (view h).isOk && !Client.parseSendPerson C (view h).rawResponse

/-- The longest run of ready envelopes from the head of the queue. -/
def readyRun (view : Nat → Response) (q : List Nat) : List Nat :=
  q.takeWhile (fun h => (view h).isReady)

/-- The list cut short just after its first element satisfying `p`. -/
def cutAfterFirst {α : Type} (p : α → Bool) : List α → List α
  | [] => []
  | x :: xs => if p x then [x] else x :: cutAfterFirst p xs

/-- The envelopes the specification has reconciliation remove: the ready run
from the head, cut short just after the first stop signal. -/
def expectedRemoved (C : Codec) (view : Nat → Response) (q : List Nat) : List Nat :=
  cutAfterFirst (stopSignal C view) (readyRun view q)

/-- Whether the field mapping reads only within the vectors of a record: six
emotion scores at least, and a clothing-colour list that is empty or starts with
three colours of three components at least. -/
def recordInRange (person : Person) : Bool :=
  decide (6 ≤ person.getEmotions.length) &&
    (person.getClothingColors.isEmpty ||
      (decide (3 ≤ person.getClothingColors.length) &&
        (person.getClothingColors.take 3).all (fun color => decide (3 ≤ color.length))))

/-- The records of a batch that `sendPeople` does not skip. -/
def withIdentifier (people : List Person) : List Person :=
  people.filter (fun p => !p.getID.isEmpty)

/-- The value of one hexadecimal digit character (lower case), 16 for any other
character. -/
def hexValue (ch : Char) : Nat :=
  if 48 ≤ ch.toNat ∧ ch.toNat ≤ 57 then ch.toNat - 48
  else if 97 ≤ ch.toNat ∧ ch.toNat ≤ 102 then ch.toNat - 87
  else 16

/-- Reading a colour string back: the characters taken two by two as base-16
numbers; `none` when a character is not a hexadecimal digit or one is left
over. -/
def readColor : List Char → Option (List Int)
  | [] => some []
  | [_] => none
  | hi :: lo :: rest =>
    if hexValue hi < 16 ∧ hexValue lo < 16 then
      (readColor rest).map (fun tail => ((16 * hexValue hi + hexValue lo : Nat) : Int) :: tail)
    else none

/-! ## A scripted environment for concrete runs -/

/-- A codec that knows a handful of bodies. -/
def demoCodec : Codec where
  parseJson := fun s =>
    if s = "\x7b\"code\":0\x7d" then some [("code", "0")]
    else if s = "\x7b\"code\":7\x7d" then some [("code", "7")]
    else if s = "\x7b\"code\":7,\"description\":\"quota\"\x7d" then
      some [("code", "7"), ("description", "quota")]
    else if s = "\x7b\"code\":0,\"session_key\":\"abc\"\x7d" then
      some [("code", "0"), ("session_key", "abc")]
    else if s = "\x7b\"session_key\":\"abc\"\x7d" then some [("session_key", "abc")]
    else none
  intFromString := fun s => if s = "0" then some 0 else if s = "7" then some 7 else none
  stringFromString := fun s => some s

/-- A scripted transport: the state lists, per handle, whether the request made
for that handle is issued and what its response object holds; nothing changes
over time. A handle beyond the script is refused. -/
def demoConnection : Connection (List (Bool × Response)) where
  request := fun st _ _ handle _ =>
    (st, match st[handle]? with
         | some entry => entry.1
         | none => false)
  receive := fun st => st
  response := fun st handle =>
    match st[handle]? with
    | some entry => entry.2
    | none => ⟨false, false, ""⟩

/-- Numeric helpers for concrete runs: a sign and a digit count stand in for
the decimal form. -/
def demoUtil : Util where
  getStringFromInt := fun i => if i < 0 then "-" else if i = 0 then "0" else "+"
  getStringFromFloat := fun _ => "f"
  toPercent := fun q => Int.tdiv (q.num * 100) q.den

/-- A client in the middle of a session, with the given transport state and
pending queue. -/
def demoClient (st : List (Bool × Response)) (queue : List Nat) :
    Client (List (Bool × Response)) :=
  { mConnection := st, mSessionKey := "abc", mSessionStarted := true,
    serverResponses := queue, created := st.length, released := [], requests := [],
    reconciled := [] }

/-- Four envelopes: lost at transport level, code 7, code 0, not yet ready. -/
def demoEnvelopes : List (Bool × Response) :=
  [(true, ⟨true, false, ""⟩), (true, ⟨true, true, "\x7b\"code\":7\x7d"⟩),
   (true, ⟨true, true, "\x7b\"code\":0\x7d"⟩), (true, ⟨false, false, ""⟩)]

/-- Two envelopes lost at transport level, with stray bodies. -/
def demoLost : List (Bool × Response) :=
  [(true, ⟨true, false, "\x7b\"code\":7\x7d"⟩), (true, ⟨true, false, "lost"⟩)]

/-- The same two lost envelopes with other stray bodies. -/
def demoLostOther : List (Bool × Response) :=
  [(true, ⟨true, false, ""⟩), (true, ⟨true, false, "\x7b\"code\":0\x7d"⟩)]

/-- A transport whose first exchange answers with code 0 and no session key. -/
def demoStartNoKey : List (Bool × Response) :=
  [(true, ⟨true, true, "\x7b\"code\":0\x7d"⟩)]

/-- A record with the given identifier and clothing colours. -/
def demoPerson (id : String) (colors : List (List Int)) : Person :=
  { getID := id, getAge := 30, getGender := 1, getMood := 0,
    getFaceRect := ⟨10, 20, 64, 64⟩, getHeadYaw := 0, getHeadPitch := 0,
    getRightEye := ⟨30, 40⟩, getLeftEye := ⟨50, 40⟩, getHeadRoll := 0,
    getAttentionSpan := 5, getEmotions := [1, 0, 0, 0, 0, 0],
    getClothingColors := colors }

/-- Three clothing colours. -/
def demoColors : List (List Int) := [[255, 0, 0], [0, 128, 0], [0, 0, 255]]

/-- A client whose session was started with the first exchange of the script
`st` (key `abc`), with nothing pending. -/
def demoActive (st : List (Bool × Response)) : Client (List (Bool × Response)) :=
  { mConnection := st, mSessionKey := "abc", mSessionStarted := true,
    serverResponses := [], created := 1, released := [], requests := [], reconciled := [] }

/-- A script for a started session: the start exchange, then two record
requests that are issued and never answered, then one that is refused. -/
def demoSession : List (Bool × Response) :=
  [(true, ⟨true, true, "\x7b\"code\":0,\"session_key\":\"abc\"\x7d"⟩),
   (true, ⟨false, false, ""⟩), (true, ⟨false, false, ""⟩), (false, ⟨false, false, ""⟩)]

/-- Four clothing colours. -/
def demoFourColors : List (List Int) := [[255, 0, 0], [0, 128, 0], [0, 0, 255], [16, 32, 48]]

/-- A script for a started session whose first record request is refused and
whose second one is issued and never answered. -/
def demoRefused : List (Bool × Response) :=
  [(true, ⟨true, true, "\x7b\"code\":0,\"session_key\":\"abc\"\x7d"⟩),
   (false, ⟨false, false, ""⟩), (true, ⟨false, false, ""⟩)]

/-! ## Lemmas on the reconciliation loop -/

theorem checkAsyncLoop_cons (C : Codec) (view : Nat → Response) (h : Nat)
    (rest rel : List Nat) :
    checkAsyncLoop C view false (h :: rest) rel =
      if (view h).isReady then
        if stopSignal C view h then (false, rest, rel ++ [h])
        else checkAsyncLoop C view false rest (rel ++ [h])
      else (true, h :: rest, rel) := by
  cases hr : (view h).isReady <;> cases hk : (view h).isOk <;>
    cases hp : Client.parseSendPerson C (view h).rawResponse <;>
    simp [checkAsyncLoop, stopSignal, hr, hk, hp]

theorem expectedRemoved_cons (C : Codec) (view : Nat → Response) (h : Nat)
    (rest : List Nat) :
    expectedRemoved C view (h :: rest) =
      if (view h).isReady then
        if stopSignal C view h then [h] else h :: expectedRemoved C view rest
      else [] := by
  cases hr : (view h).isReady <;> cases hs : stopSignal C view h <;>
    simp [expectedRemoved, readyRun, cutAfterFirst, List.takeWhile, hr, hs]

theorem checkAsyncLoop_released (C : Codec) (view : Nat → Response) (q rel : List Nat) :
    (checkAsyncLoop C view false q rel).2.2 = rel ++ expectedRemoved C view q := by
  induction q generalizing rel with
  | nil => simp [checkAsyncLoop, expectedRemoved, readyRun, cutAfterFirst]
  | cons h rest ih =>
    rw [checkAsyncLoop_cons, expectedRemoved_cons]
    cases hr : (view h).isReady <;> cases hs : stopSignal C view h <;> simp [ih]

theorem checkAsyncLoop_queue (C : Codec) (view : Nat → Response) (q rel : List Nat) :
    q = expectedRemoved C view q ++ (checkAsyncLoop C view false q rel).2.1 := by
  induction q generalizing rel with
  | nil => simp [checkAsyncLoop, expectedRemoved, readyRun, cutAfterFirst]
  | cons h rest ih =>
    rw [checkAsyncLoop_cons, expectedRemoved_cons]
    cases hr : (view h).isReady <;> cases hs : stopSignal C view h <;> simp
    exact ih _

theorem checkAsyncLoop_flag (C : Codec) (view : Nat → Response) (q rel : List Nat) :
    (checkAsyncLoop C view false q rel).1 = true ↔
      ∀ h ∈ expectedRemoved C view q, stopSignal C view h = false := by
  induction q generalizing rel with
  | nil => simp [checkAsyncLoop, expectedRemoved, readyRun, cutAfterFirst]
  | cons h rest ih =>
    rw [checkAsyncLoop_cons, expectedRemoved_cons]
    cases hr : (view h).isReady <;> cases hs : stopSignal C view h <;> simp [hs]
    exact ih _

theorem checkAsyncLoop_head (C : Codec) (view : Nat → Response) (q rel : List Nat)
    (hflag : (checkAsyncLoop C view false q rel).1 = true) :
    (checkAsyncLoop C view false q rel).2.1 = [] ∨
      ∃ h t, (checkAsyncLoop C view false q rel).2.1 = h :: t ∧ (view h).isReady = false := by
  induction q generalizing rel with
  | nil => simp [checkAsyncLoop]
  | cons h rest ih =>
    rw [checkAsyncLoop_cons] at hflag ⊢
    cases hr : (view h).isReady
    · exact Or.inr ⟨h, rest, by simp, hr⟩
    · cases hs : stopSignal C view h
      · rw [hr, hs] at hflag
        simpa [hr, hs] using ih _ (by simpa using hflag)
      · simp [hr, hs] at hflag

theorem parseSendPerson_eq (C : Codec) (response : String) :
    Client.parseSendPerson C response = (parseGenericResponse C response).1 := by
  unfold Client.parseSendPerson
  cases (parseGenericResponse C response).1 <;> rfl

theorem checkAsyncLoop_congr (C : Codec) (view view' : Nat → Response) (q rel : List Nat)
    (hsame : ∀ h ∈ q, (view h).isReady = (view' h).isReady ∧ (view h).isOk = (view' h).isOk ∧
      ((view h).isOk = true → (view h).rawResponse = (view' h).rawResponse)) :
    checkAsyncLoop C view false q rel = checkAsyncLoop C view' false q rel := by
  induction q generalizing rel with
  | nil => simp [checkAsyncLoop]
  | cons h rest ih =>
    obtain ⟨hr, hk, hraw⟩ := hsame h (by simp)
    have hstop : stopSignal C view h = stopSignal C view' h := by
      unfold stopSignal
      cases hok : (view h).isOk
      · rw [← hk, hok]; rfl
      · rw [← hk, hok, hraw hok]
    rw [checkAsyncLoop_cons, checkAsyncLoop_cons, ← hr, ← hstop,
      ih _ (fun x hx => hsame x (List.mem_cons_of_mem _ hx))]

theorem checkAsyncLoop_lost (C : Codec) (view : Nat → Response) (q rel : List Nat)
    (hlost : ∀ h ∈ q, (view h).isReady = true ∧ (view h).isOk = false) :
    checkAsyncLoop C view false q rel = (true, [], rel ++ q) := by
  induction q generalizing rel with
  | nil => simp [checkAsyncLoop]
  | cons h rest ih =>
    obtain ⟨hr, hk⟩ := hlost h (by simp)
    rw [checkAsyncLoop_cons, hr, ih _ (fun x hx => hlost x (List.mem_cons_of_mem _ hx))]
    simp [stopSignal, hk]

/-! ## Reconciliation -/

/-- C1: `Client::checkAsyncResponses` removes exactly the leading part of the
queue that the specification names (the longest run of ready envelopes from the
head, cut short just after the first ok envelope whose body fails
`parseSendPerson`), releases exactly those envelopes and leaves the rest in
order; it returns true iff none of the removed envelopes was such a failing one,
and when it returns true the queue left is empty or its head is not ready. -/
theorem checkAsyncResponses_removes_ready_run {σ : Type} (T : Connection σ) (C : Codec)
    (c : Client σ) :
    c.serverResponses =
        expectedRemoved C (T.response c.mConnection) c.serverResponses ++
          (Client.checkAsyncResponses T C c).2.serverResponses ∧
      (Client.checkAsyncResponses T C c).2.released =
        c.released ++ expectedRemoved C (T.response c.mConnection) c.serverResponses ∧
      ((Client.checkAsyncResponses T C c).1 = true ↔
        ∀ h ∈ expectedRemoved C (T.response c.mConnection) c.serverResponses,
          stopSignal C (T.response c.mConnection) h = false) ∧
      ((Client.checkAsyncResponses T C c).1 = true →
        (Client.checkAsyncResponses T C c).2.serverResponses = [] ∨
          ∃ h t, (Client.checkAsyncResponses T C c).2.serverResponses = h :: t ∧
            (T.response c.mConnection h).isReady = false) := by
  refine ⟨?_, ?_, ?_, ?_⟩
  · exact checkAsyncLoop_queue C _ _ _
  · exact checkAsyncLoop_released C _ _ _
  · exact checkAsyncLoop_flag C _ _ _
  · exact checkAsyncLoop_head C _ _ _

/-- C1 on a queue of four envelopes (lost, code 7, code 0, not ready): the
first two are removed and released, the last two stay, and the call returns
false. -/
theorem checkAsyncResponses_removes_ready_run_witness :
    (Client.checkAsyncResponses demoConnection demoCodec
        (demoClient demoEnvelopes [0, 1, 2, 3])).1 = false ∧
      (Client.checkAsyncResponses demoConnection demoCodec
        (demoClient demoEnvelopes [0, 1, 2, 3])).2.serverResponses = [2, 3] ∧
      (Client.checkAsyncResponses demoConnection demoCodec
        (demoClient demoEnvelopes [0, 1, 2, 3])).2.released = [0, 1] := by
  have key := checkAsyncResponses_removes_ready_run demoConnection demoCodec
    (demoClient demoEnvelopes [0, 1, 2, 3])
  have hrem : expectedRemoved demoCodec
      (demoConnection.response (demoClient demoEnvelopes [0, 1, 2, 3]).mConnection)
      (demoClient demoEnvelopes [0, 1, 2, 3]).serverResponses = [0, 1] := by decide
  rw [hrem] at key
  obtain ⟨hq, hrel, hflag, _⟩ := key
  refine ⟨?_, ?_, ?_⟩
  · cases hf : (Client.checkAsyncResponses demoConnection demoCodec _).1
    · rfl
    · exact absurd (hflag.mp hf 1 (by simp)) (by decide)
  · exact (List.append_cancel_left (hq.symm.trans (by decide : _ = [0, 1] ++ [2, 3])))
  · exact hrel

/-- C2: when the head envelope is ready and ok and its body parses to a
non-zero code, `Client::checkAsyncResponses` returns false, removes (and
releases) exactly the head and leaves every other envelope queued in order. -/
theorem checkAsyncResponses_stop_at_head {σ : Type} (T : Connection σ) (C : Codec)
    (c : Client σ) (head : Nat) (rest : List Nat) (members : TMembers) (code : Int)
    (hqueue : c.serverResponses = head :: rest)
    (hready : (T.response c.mConnection head).isReady = true)
    (hok : (T.response c.mConnection head).isOk = true)
    (hparse : C.parseJson (T.response c.mConnection head).rawResponse = some members)
    (hfield : members.containsKey "code" = true)
    (hconv : C.intFromString (members.index "code") = some code)
    (hcode : code ≠ 0) :
    (Client.checkAsyncResponses T C c).1 = false ∧
      (Client.checkAsyncResponses T C c).2.serverResponses = rest ∧
      (Client.checkAsyncResponses T C c).2.released = c.released ++ [head] := by
  have hstop : stopSignal C (T.response c.mConnection) head = true := by
    simp [stopSignal, hok, parseSendPerson_eq, parseGenericResponse, hparse, getJsonParam,
      hfield, hconv, hcode]
  simp [Client.checkAsyncResponses, hqueue, checkAsyncLoop_cons, hready, hstop]

/-- C2 on the queue (code 7, code 0, not ready): only the head goes. -/
theorem checkAsyncResponses_stop_at_head_witness :
    (Client.checkAsyncResponses demoConnection demoCodec
        (demoClient demoEnvelopes [1, 2, 3])).1 = false ∧
      (Client.checkAsyncResponses demoConnection demoCodec
        (demoClient demoEnvelopes [1, 2, 3])).2.serverResponses = [2, 3] ∧
      (Client.checkAsyncResponses demoConnection demoCodec
        (demoClient demoEnvelopes [1, 2, 3])).2.released = [] ++ [1] :=
  checkAsyncResponses_stop_at_head demoConnection demoCodec
    (demoClient demoEnvelopes [1, 2, 3]) 1 [2, 3] [("code", "7")] 7
    (by decide) (by decide) (by decide) (by decide) (by decide) (by decide) (by decide)

/-- C3: when the queue is non-empty and its head is not ready,
`Client::checkAsyncResponses` returns true, leaves the queue as it is and
releases nothing, whatever the envelopes behind the head hold. -/
theorem checkAsyncResponses_head_not_ready {σ : Type} (T : Connection σ) (C : Codec)
    (c : Client σ) (head : Nat) (rest : List Nat)
    (hqueue : c.serverResponses = head :: rest)
    (hready : (T.response c.mConnection head).isReady = false) :
    (Client.checkAsyncResponses T C c).1 = true ∧
      (Client.checkAsyncResponses T C c).2.serverResponses = c.serverResponses ∧
      (Client.checkAsyncResponses T C c).2.released = c.released := by
  simp [Client.checkAsyncResponses, hqueue, checkAsyncLoop_cons, hready]

/-- C3 on three handles of which only the second is ready (with code 7). -/
theorem checkAsyncResponses_head_not_ready_witness :
    (Client.checkAsyncResponses demoConnection demoCodec
        (demoClient demoEnvelopes [3, 1, 4])).1 = true ∧
      (Client.checkAsyncResponses demoConnection demoCodec
        (demoClient demoEnvelopes [3, 1, 4])).2.serverResponses = [3, 1, 4] ∧
      (Client.checkAsyncResponses demoConnection demoCodec
        (demoClient demoEnvelopes [3, 1, 4])).2.released = [] :=
  checkAsyncResponses_head_not_ready demoConnection demoCodec
    (demoClient demoEnvelopes [3, 1, 4]) 3 [1, 4] (by decide) (by decide)

/-- C4: a ready envelope that is not ok raises no stop signal. The flag, the
queue left and the envelopes released by `Client::checkAsyncResponses` are the
same in any two transport states that agree on the readiness and ok flag of the
queued envelopes and on the body of the ok ones; and when every queued envelope
is ready and not ok the call returns true and leaves the queue empty. -/
theorem checkAsyncResponses_ignores_lost {σ : Type} (T : Connection σ) (C : Codec)
    (c : Client σ) :
    (∀ st : σ,
      (∀ h ∈ c.serverResponses,
        (T.response c.mConnection h).isReady = (T.response st h).isReady ∧
        (T.response c.mConnection h).isOk = (T.response st h).isOk ∧
        ((T.response c.mConnection h).isOk = true →
          (T.response c.mConnection h).rawResponse = (T.response st h).rawResponse)) →
      (Client.checkAsyncResponses T C c).1 =
          (Client.checkAsyncResponses T C { c with mConnection := st }).1 ∧
        (Client.checkAsyncResponses T C c).2.serverResponses =
          (Client.checkAsyncResponses T C { c with mConnection := st }).2.serverResponses ∧
        (Client.checkAsyncResponses T C c).2.released =
          (Client.checkAsyncResponses T C { c with mConnection := st }).2.released) ∧
    ((∀ h ∈ c.serverResponses,
        (T.response c.mConnection h).isReady = true ∧
        (T.response c.mConnection h).isOk = false) →
      (Client.checkAsyncResponses T C c).1 = true ∧
        (Client.checkAsyncResponses T C c).2.serverResponses = []) := by
  constructor
  · intro st hsame
    simp only [Client.checkAsyncResponses]
    rw [checkAsyncLoop_congr C _ (T.response st) _ _ hsame]
    exact ⟨rfl, rfl, rfl⟩
  · intro hlost
    simp only [Client.checkAsyncResponses]
    rw [checkAsyncLoop_lost C _ _ _ hlost]
    exact ⟨rfl, rfl⟩

/-- C4 on two lost envelopes: the stray bodies do not matter and the queue is
drained with result true. -/
theorem checkAsyncResponses_ignores_lost_witness :
    ((Client.checkAsyncResponses demoConnection demoCodec (demoClient demoLost [0, 1])).1 =
        (Client.checkAsyncResponses demoConnection demoCodec
          { demoClient demoLost [0, 1] with mConnection := demoLostOther }).1 ∧
      (Client.checkAsyncResponses demoConnection demoCodec
          (demoClient demoLost [0, 1])).2.serverResponses =
        (Client.checkAsyncResponses demoConnection demoCodec
          { demoClient demoLost [0, 1] with mConnection := demoLostOther }).2.serverResponses ∧
      (Client.checkAsyncResponses demoConnection demoCodec
          (demoClient demoLost [0, 1])).2.released =
        (Client.checkAsyncResponses demoConnection demoCodec
          { demoClient demoLost [0, 1] with mConnection := demoLostOther }).2.released) ∧
    ((Client.checkAsyncResponses demoConnection demoCodec (demoClient demoLost [0, 1])).1 = true ∧
      (Client.checkAsyncResponses demoConnection demoCodec
        (demoClient demoLost [0, 1])).2.serverResponses = []) :=
  ⟨(checkAsyncResponses_ignores_lost demoConnection demoCodec (demoClient demoLost [0, 1])).1
      demoLostOther (by decide),
    (checkAsyncResponses_ignores_lost demoConnection demoCodec (demoClient demoLost [0, 1])).2
      (by decide)⟩

/-! ## Generic envelope -/

theorem parseGenericResponse_accepts_iff (C : Codec) (jsonText : String) :
    (parseGenericResponse C jsonText).1 = true ↔
      ∃ members, C.parseJson jsonText = some members ∧
        members.containsKey "code" = true ∧
        C.intFromString (members.index "code") = some 0 := by
  unfold parseGenericResponse getJsonParam
  cases hp : C.parseJson jsonText with
  | none => simp
  | some members =>
    cases hk : members.containsKey "code" with
    | false => simp [hk]
    | true =>
      cases hc : C.intFromString (members.index "code") with
      | none => simp [hk, hc]
      | some code => simp [hk, hc]

/-- C6: `parseGenericResponse` returns true iff the codec parses the body, the
members have a `code` field that converts to an integer, and that integer is 0.
The `description` field plays no part: reading it differently, or changing the
parsed members in a way that leaves every field other than `description` as it
was, never changes the result. -/
theorem parseGenericResponse_true_iff (C : Codec) (jsonText : String) :
    ((parseGenericResponse C jsonText).1 = true ↔
      ∃ members, C.parseJson jsonText = some members ∧
        members.containsKey "code" = true ∧
        C.intFromString (members.index "code") = some 0) ∧
    (∀ (touch : TMembers → TMembers) (readString : String → Option String),
      (∀ members key, key ≠ "description" →
        (touch members).lookup key = members.lookup key) →
      (parseGenericResponse
          { parseJson := fun text => (C.parseJson text).map touch,
            intFromString := C.intFromString,
            stringFromString := readString } jsonText).1 =
        (parseGenericResponse C jsonText).1) := by
  constructor
  · exact parseGenericResponse_accepts_iff C jsonText
  · intro touch readString htouch
    unfold parseGenericResponse getJsonParam
    cases hp : C.parseJson jsonText with
    | none => simp [hp]
    | some members =>
      have hcode := htouch members "code" (by decide)
      simp only [hp, Option.map_some', TMembers.containsKey, TMembers.index, hcode]
      cases hk : (members.lookup "code").isSome with
      | false => simp [hk]
      | true =>
        cases hc : C.intFromString ((members.lookup "code").getD "") with
        | none => simp [hk, hc]
        | some code => simp [hk, hc]

/-- C6 on concrete bodies: code 0 gives true, and putting a description in front
of the members of a code 7 body changes nothing. -/
theorem parseGenericResponse_true_iff_witness :
    (parseGenericResponse demoCodec "\x7b\"code\":0\x7d").1 = true ∧
    (parseGenericResponse
        { parseJson := fun text =>
            (demoCodec.parseJson text).map (fun members => ("description", "late") :: members),
          intFromString := demoCodec.intFromString,
          stringFromString := fun _ => none } "\x7b\"code\":7\x7d").1 =
      (parseGenericResponse demoCodec "\x7b\"code\":7\x7d").1 :=
  ⟨(parseGenericResponse_true_iff demoCodec "\x7b\"code\":0\x7d").1.mpr
      ⟨[("code", "0")], by decide, by decide, by decide⟩,
    (parseGenericResponse_true_iff demoCodec "\x7b\"code\":7\x7d").2
      (fun members => ("description", "late") :: members) (fun _ => none)
      (fun members key hkey => by
        have hne : (key == "description") = false := by simpa using hkey
        simp [List.lookup, hne])⟩

/-! ## Session start -/

/-- C8: whenever `Client::startSession` returns false the stored session key is
left as it was; so a client whose constructor could not start the session has
the empty key. -/
theorem startSession_false_keeps_key {σ : Type} (T : Connection σ) (C : Codec) :
    (∀ (c : Client σ) (cameraName : String),
      (Client.startSession T C c cameraName).1 = false →
        (Client.startSession T C c cameraName).2.mSessionKey = c.mSessionKey) ∧
    (∀ (connection : σ) (cameraName : String),
      (Client.construct T C connection cameraName).mSessionStarted = false →
        (Client.construct T C connection cameraName).mSessionKey = "") := by
  have hstart : ∀ (c : Client σ) (cameraName : String),
      (Client.startSession T C c cameraName).1 = false →
        (Client.startSession T C c cameraName).2.mSessionKey = c.mSessionKey := by
    intro c cameraName
    unfold Client.startSession
    simp only
    split
    · split
      · intro _; rfl
      · unfold Client.parseStartSession
        simp only
        split
        · intro _; rfl
        · split
          · intro _; rfl
          · intro h; exact absurd h (by simp)
    · intro _; rfl
  refine ⟨hstart, ?_⟩
  intro connection cameraName hfalse
  exact hstart _ cameraName hfalse

/-- C8 on the body with code 0 and no session key: the constructed client is
not started and its key is empty. -/
theorem startSession_false_keeps_key_witness :
    (Client.construct demoConnection demoCodec demoStartNoKey "cam").mSessionStarted = false ∧
      (Client.construct demoConnection demoCodec demoStartNoKey "cam").mSessionKey = "" :=
  ⟨by decide,
    (startSession_false_keeps_key demoConnection demoCodec).2 demoStartNoKey "cam" (by decide)⟩

/-! ## Record submission -/

theorem getColorString_isSome (color : List Int) (hlen : 3 ≤ color.length) :
    (getColorString color).isSome = true := by
  rcases color with _ | ⟨c0, _ | ⟨c1, _ | ⟨c2, rest⟩⟩⟩ <;> simp at hlen
  simp [getColorString]

theorem mapFields_isSome (U : Util) (request : TRequest) (person : Person)
    (hrange : recordInRange person = true) :
    (mapFields U request person).isSome = true := by
  unfold recordInRange at hrange
  simp only [Bool.and_eq_true, Bool.or_eq_true, decide_eq_true_eq] at hrange
  obtain ⟨hemo, hcol⟩ := hrange
  rcases hE : person.getEmotions with
    _ | ⟨e0, _ | ⟨e1, _ | ⟨e2, _ | ⟨e3, _ | ⟨e4, _ | ⟨e5, rest⟩⟩⟩⟩⟩⟩ <;>
    simp [hE] at hemo
  rcases hC : person.getClothingColors with _ | ⟨k0, _ | ⟨k1, _ | ⟨k2, more⟩⟩⟩
  · simp [mapFields, hE, hC]
  · simp [hC] at hcol
  · simp [hC] at hcol
  · simp [hC] at hcol
    obtain ⟨h0, h1, h2⟩ := hcol
    obtain ⟨s0, hs0⟩ := Option.isSome_iff_exists.mp (getColorString_isSome k0 h0)
    obtain ⟨s1, hs1⟩ := Option.isSome_iff_exists.mp (getColorString_isSome k1 h1)
    obtain ⟨s2, hs2⟩ := Option.isSome_iff_exists.mp (getColorString_isSome k2 h2)
    simp [mapFields, hE, hC, hs0, hs1, hs2]

theorem sendPeopleLoop_isSome {σ : Type} (T : Connection σ) (C : Codec) (U : Util)
    (people : List Person)
    (hrange : ∀ p ∈ people, p.getID.isEmpty = false → recordInRange p = true) :
    ∀ (request : TRequest) (allSent : Bool) (c : Client σ),
      (sendPeopleLoop T C U people request allSent c).isSome = true := by
  induction people with
  | nil => intro request allSent c; simp [sendPeopleLoop]
  | cons person rest ih =>
    intro request allSent c
    have ih := ih (fun p hp => hrange p (List.mem_cons_of_mem _ hp))
    rw [sendPeopleLoop]
    cases hid : person.getID.isEmpty with
    | true => simpa using ih request allSent c
    | false =>
      obtain ⟨mapped, hmapped⟩ := Option.isSome_iff_exists.mp
        (mapFields_isSome U request person (hrange person (by simp) hid))
      simp only [hmapped, Bool.false_eq_true, if_false]
      split
      · exact ih _ _ _
      · exact ih _ _ _

theorem sendPeopleLoop_filter {σ : Type} (T : Connection σ) (C : Codec) (U : Util)
    (people : List Person) :
    ∀ (request : TRequest) (allSent : Bool) (c : Client σ),
      sendPeopleLoop T C U people request allSent c =
        sendPeopleLoop T C U (people.filter (fun p => !p.getID.isEmpty)) request allSent c := by
  induction people with
  | nil => intro request allSent c; rfl
  | cons person rest ih =>
    intro request allSent c
    cases hid : person.getID.isEmpty with
    | true =>
      rw [sendPeopleLoop]
      simp only [hid, if_true, Bool.not_true, Bool.false_eq_true, not_false_eq_true,
        List.filter_cons_of_neg]
      exact ih _ _ _
    | false =>
      rw [List.filter_cons_of_pos (by simp [hid]), sendPeopleLoop, sendPeopleLoop]
      simp only [hid, Bool.false_eq_true, if_false]
      cases mapFields U request person with
      | none => rfl
      | some mapped =>
        simp only
        split
        · exact ih _ _ _
        · exact ih _ _ _

/-- C9: records with an empty identifier have no effect on `Client::sendPeople`:
the whole outcome (flag, pending queue, requests made, transport state) is that
of the batch with those records removed. -/
theorem sendPeople_skips_empty_id {σ : Type} (T : Connection σ) (C : Codec) (U : Util)
    (c : Client σ) (people : List Person) (frameNumber : Int) :
    Client.sendPeople T C U c people frameNumber =
      Client.sendPeople T C U c (people.filter (fun p => !p.getID.isEmpty)) frameNumber := by
  unfold Client.sendPeople
  exact sendPeopleLoop_filter T C U people _ _ _

/-- C10 at a failing input: in the batch of record `a` (three clothing colours)
followed by record `b` (none), the request dispatched for `b` still carries
`ClothesColors_1`, with the colour of `a`; submitted alone, `b` is sent without
that field. The request map is shared by the iterations of the loop and the
field is never erased. -/
theorem sendPeople_stale_clothes_color :
    (Client.sendPeople demoConnection demoCodec demoUtil (demoActive demoSession)
        [demoPerson "a" demoColors, demoPerson "b" []] 7).map
        (fun r => r.2.requests.map
          (fun q => (q.params.lookup "sdk_name", q.params.lookup "ClothesColors_1"))) =
      some [(some "a", some "0000ff"), (some "b", some "0000ff")] ∧
    (Client.sendPeople demoConnection demoCodec demoUtil (demoActive demoSession)
        [demoPerson "b" []] 7).map
        (fun r => r.2.requests.map
          (fun q => (q.params.lookup "sdk_name", q.params.lookup "ClothesColors_1"))) =
      some [(some "b", none)] := by
  constructor <;> decide

/-! ## Colour strings -/

theorem hexValue_hexDigit (d : Nat) (hd : d < 16) : hexValue (hexDigit d) = d := by
  interval_cases d <;> decide

theorem hexField_byte (v : Int) (hlo : 0 ≤ v) (hhi : v ≤ 255) :
    hexField v = [hexDigit (v.toNat / 16), hexDigit (v.toNat % 16)] := by
  obtain ⟨n, rfl⟩ := Int.eq_ofNat_of_zero_le hlo
  have hn : n < 256 := by omega
  have hmod : ((n : Int) % 4294967296).toNat = n := by omega
  unfold hexField
  simp only [hmod, Int.toNat_ofNat]
  by_cases hsmall : n < 16
  · have hdiv : n / 16 = 0 := by omega
    have hrem : n % 16 = n := by omega
    simp [hexDigitsAux, hsmall, hdiv, hrem, hexDigit, List.replicate]
  · have hdiv : n / 16 < 16 := by omega
    simp [hexDigitsAux, hsmall, hdiv]

theorem readColor_hexField (v : Int) (hlo : 0 ≤ v) (hhi : v ≤ 255) (rest : List Char) :
    readColor (hexField v ++ rest) = (readColor rest).map (fun tail => v :: tail) := by
  obtain ⟨n, rfl⟩ := Int.eq_ofNat_of_zero_le hlo
  have hn : n < 256 := by omega
  have h1 : n / 16 < 16 := by omega
  have h2 : n % 16 < 16 := by omega
  have hsum : 16 * (n / 16) + n % 16 = n := by omega
  rw [hexField_byte _ hlo hhi]
  simp [readColor, hexValue_hexDigit, h1, h2, hsum]

theorem getColorString_triple (r g b : Int) :
    getColorString [r, g, b] = some (String.mk (hexField r ++ hexField g ++ hexField b)) := by
  simp [getColorString]

theorem readColor_triple (r g b : Int) (hr0 : 0 ≤ r) (hr1 : r ≤ 255) (hg0 : 0 ≤ g)
    (hg1 : g ≤ 255) (hb0 : 0 ≤ b) (hb1 : b ≤ 255) :
    readColor (hexField r ++ hexField g ++ hexField b) = some [r, g, b] := by
  have hb : readColor (hexField b) = some [b] := by
    have := readColor_hexField b hb0 hb1 []
    simpa [readColor] using this
  rw [List.append_assoc, readColor_hexField r hr0 hr1, readColor_hexField g hg0 hg1, hb]
  rfl

/-- C17: for a colour triple with components in 0..255, `getColorString` gives
exactly six hexadecimal digits, two per component (high digit first, padded
with `0`) in the order R, G, B; reading the pairs back as base-16 numbers gives
the triple, so distinct triples have distinct strings. -/
theorem getColorString_six_hex_digits (r g b : Int) (hr0 : 0 ≤ r) (hr1 : r ≤ 255)
    (hg0 : 0 ≤ g) (hg1 : g ≤ 255) (hb0 : 0 ≤ b) (hb1 : b ≤ 255) :
    getColorString [r, g, b] =
        some (String.mk [hexDigit (r.toNat / 16), hexDigit (r.toNat % 16),
          hexDigit (g.toNat / 16), hexDigit (g.toNat % 16),
          hexDigit (b.toNat / 16), hexDigit (b.toNat % 16)]) ∧
    (∀ s, getColorString [r, g, b] = some s →
      s.length = 6 ∧ (∀ ch ∈ s.data, hexValue ch < 16) ∧ readColor s.data = some [r, g, b]) ∧
    (∀ r' g' b' : Int, 0 ≤ r' → r' ≤ 255 → 0 ≤ g' → g' ≤ 255 → 0 ≤ b' → b' ≤ 255 →
      getColorString [r, g, b] = getColorString [r', g', b'] →
      r = r' ∧ g = g' ∧ b = b') := by
  have hform : hexField r ++ hexField g ++ hexField b =
      [hexDigit (r.toNat / 16), hexDigit (r.toNat % 16),
        hexDigit (g.toNat / 16), hexDigit (g.toNat % 16),
        hexDigit (b.toNat / 16), hexDigit (b.toNat % 16)] := by
    rw [hexField_byte r hr0 hr1, hexField_byte g hg0 hg1, hexField_byte b hb0 hb1]
    rfl
  have hdigit : ∀ n : Nat, hexValue (hexDigit (n / 16 % 16)) < 16 ∧
      hexValue (hexDigit (n % 16)) < 16 := by
    intro n
    rw [hexValue_hexDigit _ (Nat.mod_lt _ (by decide)),
      hexValue_hexDigit _ (Nat.mod_lt _ (by decide))]
    exact ⟨Nat.mod_lt _ (by decide), Nat.mod_lt _ (by decide)⟩
  have hbyte : ∀ v : Int, 0 ≤ v → v ≤ 255 → v.toNat / 16 = v.toNat / 16 % 16 := by
    intro v h0 h1
    omega
  refine ⟨?_, ?_, ?_⟩
  · rw [getColorString_triple, hform]
  · intro s hs
    rw [getColorString_triple] at hs
    have hdata : s.data = hexField r ++ hexField g ++ hexField b := by
      rw [← Option.some.inj hs]
    refine ⟨?_, ?_, ?_⟩
    · rw [String.length, hdata, hform]
      rfl
    · rw [hdata, hform, hbyte r hr0 hr1, hbyte g hg0 hg1, hbyte b hb0 hb1]
      intro ch hch
      simp only [List.mem_cons, List.mem_singleton, List.not_mem_nil, or_false] at hch
      rcases hch with rfl | rfl | rfl | rfl | rfl | rfl
      · exact (hdigit r.toNat).1
      · exact (hdigit r.toNat).2
      · exact (hdigit g.toNat).1
      · exact (hdigit g.toNat).2
      · exact (hdigit b.toNat).1
      · exact (hdigit b.toNat).2
    · rw [hdata]
      exact readColor_triple r g b hr0 hr1 hg0 hg1 hb0 hb1
  · intro r' g' b' hr0' hr1' hg0' hg1' hb0' hb1' hsame
    rw [getColorString_triple, getColorString_triple] at hsame
    have hchars : hexField r ++ hexField g ++ hexField b =
        hexField r' ++ hexField g' ++ hexField b' := by
      have hstr := Option.some.inj hsame
      exact congrArg String.data hstr
    have hread := readColor_triple r g b hr0 hr1 hg0 hg1 hb0 hb1
    rw [hchars, readColor_triple r' g' b' hr0' hr1' hg0' hg1' hb0' hb1'] at hread
    have hlist := Option.some.inj hread
    simp only [List.cons.injEq, and_true] at hlist
    exact ⟨hlist.1.symm, hlist.2.1.symm, hlist.2.2.symm⟩

/-- C17 on the triple (255, 0, 171): the string is `ff00ab`. -/
theorem getColorString_six_hex_digits_witness :
    getColorString [255, 0, 171] = some "ff00ab" :=
  (getColorString_six_hex_digits 255 0 171 (by decide) (by decide) (by decide) (by decide)
    (by decide) (by decide)).1.trans (by decide)

theorem lookup_set_self (r : TRequest) (k v : String) :
    (TRequest.set r k v).lookup k = some v := by
  induction r with
  | nil => simp [TRequest.set, List.lookup]
  | cons entry rest ih =>
    obtain ⟨k', v'⟩ := entry
    by_cases hk : k' = k
    · simp [TRequest.set, hk, List.lookup]
    · have hne : (k == k') = false := by simpa using fun h => hk h.symm
      simp [TRequest.set, hk, List.lookup, hne, ih]

theorem lookup_set_other (r : TRequest) (k v key : String) (hne : key ≠ k) :
    (TRequest.set r k v).lookup key = r.lookup key := by
  induction r with
  | nil =>
    have hb : (key == k) = false := by simpa using hne
    simp [TRequest.set, List.lookup, hb]
  | cons entry rest ih =>
    obtain ⟨k', v'⟩ := entry
    by_cases hk : k' = k
    · subst hk
      have hb : (key == k') = false := by simpa using hne
      simp [TRequest.set, List.lookup, hb]
    · cases hb : (key == k') <;> simp [TRequest.set, hk, List.lookup, hb, ih]

theorem mapFields_fields (U : Util) (request mapped : TRequest) (person : Person)
    (hmapped : mapFields U request person = some mapped) :
    mapped.lookup "session_key" = request.lookup "session_key" ∧
    mapped.lookup "frame" = request.lookup "frame" ∧
    mapped.lookup "sdk_name" = some person.getID ∧
    mapped.lookup "neutral" = some "0" ∧
    ∃ e0 e1 e2 e3 e4 e5 rest, person.getEmotions = e0 :: e1 :: e2 :: e3 :: e4 :: e5 :: rest ∧
      mapped.lookup "happy" = some (U.getStringFromInt (U.toPercent e0)) ∧
      mapped.lookup "surprised" = some (U.getStringFromInt (U.toPercent e1)) ∧
      mapped.lookup "angry" = some (U.getStringFromInt (U.toPercent e2)) ∧
      mapped.lookup "disgusted" = some (U.getStringFromInt (U.toPercent e3)) ∧
      mapped.lookup "afraid" = some (U.getStringFromInt (U.toPercent e4)) ∧
      mapped.lookup "sad" = some (U.getStringFromInt (U.toPercent e5)) := by
  rcases hE : person.getEmotions with
    _ | ⟨e0, _ | ⟨e1, _ | ⟨e2, _ | ⟨e3, _ | ⟨e4, _ | ⟨e5, rest⟩⟩⟩⟩⟩⟩ <;>
    simp [mapFields, hE] at hmapped
  rcases hC : person.getClothingColors with _ | ⟨k0, _ | ⟨k1, _ | ⟨k2, more⟩⟩⟩ <;>
    simp [hC] at hmapped
  · subst hmapped
    refine ⟨?_, ?_, ?_, ?_, e0, e1, e2, e3, e4, e5, rest, rfl, ?_, ?_, ?_, ?_, ?_, ?_⟩ <;>
      simp [lookup_set_other, lookup_set_self]
  · cases h0 : getColorString k0 <;> simp [h0] at hmapped
    cases h1 : getColorString k1 <;> simp [h1] at hmapped
    cases h2 : getColorString k2 <;> simp [h2] at hmapped
    subst hmapped
    refine ⟨?_, ?_, ?_, ?_, e0, e1, e2, e3, e4, e5, rest, rfl, ?_, ?_, ?_, ?_, ?_, ?_⟩ <;>
      simp [lookup_set_other, lookup_set_self]

theorem mapFields_clothes (U : Util) (request mapped : TRequest) (person : Person)
    (hmapped : mapFields U request person = some mapped) :
    (person.getClothingColors = [] ∧
        mapped.lookup "ClothesColors_1" = request.lookup "ClothesColors_1") ∨
      ∃ k0 k1 k2 more text, person.getClothingColors = k0 :: k1 :: k2 :: more ∧
        getColorString k2 = some text ∧ mapped.lookup "ClothesColors_1" = some text := by
  rcases hE : person.getEmotions with
    _ | ⟨e0, _ | ⟨e1, _ | ⟨e2, _ | ⟨e3, _ | ⟨e4, _ | ⟨e5, rest⟩⟩⟩⟩⟩⟩ <;>
    simp [mapFields, hE] at hmapped
  rcases hC : person.getClothingColors with _ | ⟨k0, _ | ⟨k1, _ | ⟨k2, more⟩⟩⟩ <;>
    simp [hC] at hmapped
  · subst hmapped
    left
    simp [lookup_set_other]
  · cases h0 : getColorString k0 <;> simp [h0] at hmapped
    cases h1 : getColorString k1 <;> simp [h1] at hmapped
    cases h2 : getColorString k2 with
    | none => simp [h2] at hmapped
    | some text =>
      simp [h2] at hmapped
      subst hmapped
      right
      exact ⟨k0, k1, k2, more, text, rfl, h2, lookup_set_self _ _ _⟩

theorem sendPeopleLoop_each {σ : Type} (T : Connection σ) (C : Codec) (U : Util)
    (I : TRequest → Prop) (P : Person → RequestRecord → Prop)
    (hstep : ∀ (request : TRequest) (person : Person) (mapped : TRequest) (handle : Nat)
      (issued : Bool), I request → person.getID.isEmpty = false →
      mapFields U request person = some mapped →
      I mapped ∧ P person ⟨KServerURL ++ KSendPersonURL, mapped, handle, false, issued⟩)
    (people : List Person) :
    ∀ (request : TRequest) (allSent : Bool) (c : Client σ) (result : Bool) (c' : Client σ),
      I request → sendPeopleLoop T C U people request allSent c = some (result, c') →
      ∃ sent : List RequestRecord,
        c'.requests = c.requests ++ sent ∧ List.Forall₂ P (withIdentifier people) sent := by
  induction people with
  | nil =>
    intro request allSent c result c' _ hrun
    simp only [sendPeopleLoop, Option.some.injEq, Prod.mk.injEq] at hrun
    obtain ⟨_, rfl⟩ := hrun
    exact ⟨[], by simp, by simp [withIdentifier]⟩
  | cons person rest ih =>
    intro request allSent c result c' hinv hrun
    rw [sendPeopleLoop] at hrun
    cases hid : person.getID.isEmpty with
    | true =>
      simp only [hid, if_true] at hrun
      obtain ⟨sent, h1, h2⟩ := ih _ _ _ _ _ hinv hrun
      exact ⟨sent, h1, by simpa [withIdentifier, hid] using h2⟩
    | false =>
      simp only [hid, Bool.false_eq_true, if_false] at hrun
      cases hmapped : mapFields U request person with
      | none => simp [hmapped] at hrun
      | some mapped =>
        simp only [hmapped] at hrun
        cases hissued : (T.request c.mConnection (KServerURL ++ KSendPersonURL) mapped
            c.created false).2 with
        | true =>
          simp only [hissued, if_true] at hrun
          obtain ⟨hinv', hP⟩ := hstep request person mapped c.created true hinv hid hmapped
          obtain ⟨sent, h1, h2⟩ := ih _ _ _ _ _ hinv' hrun
          refine ⟨⟨KServerURL ++ KSendPersonURL, mapped, c.created, false, true⟩ :: sent,
            ?_, ?_⟩
          · rw [h1]; simp [Client.checkAsyncResponses]
          · simpa [withIdentifier, hid] using List.Forall₂.cons hP h2
        | false =>
          simp only [hissued, Bool.false_eq_true, if_false] at hrun
          obtain ⟨hinv', hP⟩ := hstep request person mapped c.created false hinv hid hmapped
          obtain ⟨sent, h1, h2⟩ := ih _ _ _ _ _ hinv' hrun
          refine ⟨⟨KServerURL ++ KSendPersonURL, mapped, c.created, false, false⟩ :: sent,
            ?_, ?_⟩
          · rw [h1]; simp
          · simpa [withIdentifier, hid] using List.Forall₂.cons hP h2

theorem sendPeople_run {σ : Type} (T : Connection σ) (C : Codec) (U : Util)
    (c : Client σ) (people : List Person) (frameNumber : Int)
    (hrange : ∀ p ∈ people, p.getID.isEmpty = false → recordInRange p = true) :
    ∃ (allSent : Bool) (c' : Client σ),
      Client.sendPeople T C U c people frameNumber = some (allSent, c') := by
  obtain ⟨⟨allSent, c'⟩, hrun⟩ := Option.isSome_iff_exists.mp
    (sendPeopleLoop_isSome T C U people hrange
      ((TRequest.set [] "session_key" c.mSessionKey).set "frame"
        (U.getStringFromInt frameNumber)) true c)
  exact ⟨allSent, c', hrun⟩

/-! ## Field mapping -/

/-- C11, as the code has it: for every batch in range, each request of
`Client::sendPeople` belongs to one record with an identifier, in order, and
when that record has at least three clothing colours the `ClothesColors_1` field
is the colour string of the third one (the last only when there are exactly
three). -/
theorem sendPeople_clothes_color_third {σ : Type} (T : Connection σ) (C : Codec) (U : Util)
    (c : Client σ) (people : List Person) (frameNumber : Int)
    (hrange : ∀ p ∈ people, p.getID.isEmpty = false → recordInRange p = true) :
    ∃ (allSent : Bool) (c' : Client σ) (sent : List RequestRecord),
      Client.sendPeople T C U c people frameNumber = some (allSent, c') ∧
      c'.requests = c.requests ++ sent ∧
      List.Forall₂
        (fun p q => ∀ k0 k1 k2 more, p.getClothingColors = k0 :: k1 :: k2 :: more →
          ∃ text, getColorString k2 = some text ∧
            q.params.lookup "ClothesColors_1" = some text)
        (withIdentifier people) sent := by
  obtain ⟨allSent, c', hrun⟩ := sendPeople_run T C U c people frameNumber hrange
  obtain ⟨sent, hsent, hall⟩ := sendPeopleLoop_each T C U (fun _ => True)
    (fun p q => ∀ k0 k1 k2 more, p.getClothingColors = k0 :: k1 :: k2 :: more →
      ∃ text, getColorString k2 = some text ∧ q.params.lookup "ClothesColors_1" = some text)
    (by
      intro request person mapped handle issued _ _ hmapped
      refine ⟨trivial, ?_⟩
      intro k0 k1 k2 more hcolors
      rcases mapFields_clothes U request mapped person hmapped with ⟨hnil, _⟩ |
        ⟨j0, j1, j2, rest, text, hj, htext, hfield⟩
      · rw [hnil] at hcolors
        exact absurd hcolors (by simp)
      · rw [hj] at hcolors
        simp only [List.cons.injEq] at hcolors
        obtain ⟨_, _, h2, _⟩ := hcolors
        exact ⟨text, h2 ▸ htext, hfield⟩)
    people _ _ _ _ _ trivial hrun
  exact ⟨allSent, c', sent, hrun, hsent, hall⟩

/-- C11 on a record with three colours: the request carries the third. -/
theorem sendPeople_clothes_color_third_witness :
    ∃ (allSent : Bool) (c' : Client (List (Bool × Response))) (sent : List RequestRecord),
      Client.sendPeople demoConnection demoCodec demoUtil (demoActive demoSession)
        [demoPerson "a" demoColors] 7 = some (allSent, c') ∧
      c'.requests = (demoActive demoSession).requests ++ sent ∧
      List.Forall₂
        (fun p q => ∀ k0 k1 k2 more, p.getClothingColors = k0 :: k1 :: k2 :: more →
          ∃ text, getColorString k2 = some text ∧
            q.params.lookup "ClothesColors_1" = some text)
        (withIdentifier [demoPerson "a" demoColors]) sent :=
  sendPeople_clothes_color_third demoConnection demoCodec demoUtil (demoActive demoSession)
    [demoPerson "a" demoColors] 7 (by decide)

/-- C11 refuted as stated: for a record with four clothing colours the request
carries the string of the third colour, `0000ff`, not that of the last one,
`102030`. -/
theorem sendPeople_clothes_color_not_last :
    (Client.sendPeople demoConnection demoCodec demoUtil (demoActive demoSession)
        [demoPerson "a" demoFourColors] 7).map
        (fun r => r.2.requests.map (fun q => q.params.lookup "ClothesColors_1")) =
      some [some "0000ff"] ∧
    demoFourColors.getLast?.bind getColorString = some "102030" ∧
    (demoPerson "a" demoFourColors).getClothingColors ≠ [] := by
  refine ⟨by decide, by decide, by decide⟩

/-- C15: for every batch in range, each request of `Client::sendPeople` belongs
to one record with an identifier, in order; its `neutral` field is the literal
`0`, and when the record has the six emotion scores `e0 .. e5` the fields
`happy`, `surprised`, `angry`, `disgusted`, `afraid`, `sad` carry the scaled
values of `e0`, `e1`, `e2`, `e3`, `e4`, `e5` in that order. -/
theorem sendPeople_emotions_positional {σ : Type} (T : Connection σ) (C : Codec) (U : Util)
    (c : Client σ) (people : List Person) (frameNumber : Int)
    (hrange : ∀ p ∈ people, p.getID.isEmpty = false → recordInRange p = true) :
    ∃ (allSent : Bool) (c' : Client σ) (sent : List RequestRecord),
      Client.sendPeople T C U c people frameNumber = some (allSent, c') ∧
      c'.requests = c.requests ++ sent ∧
      List.Forall₂
        (fun p q => q.params.lookup "neutral" = some "0" ∧
          ∀ e0 e1 e2 e3 e4 e5, p.getEmotions = [e0, e1, e2, e3, e4, e5] →
            q.params.lookup "happy" = some (U.getStringFromInt (U.toPercent e0)) ∧
            q.params.lookup "surprised" = some (U.getStringFromInt (U.toPercent e1)) ∧
            q.params.lookup "angry" = some (U.getStringFromInt (U.toPercent e2)) ∧
            q.params.lookup "disgusted" = some (U.getStringFromInt (U.toPercent e3)) ∧
            q.params.lookup "afraid" = some (U.getStringFromInt (U.toPercent e4)) ∧
            q.params.lookup "sad" = some (U.getStringFromInt (U.toPercent e5)))
        (withIdentifier people) sent := by
  obtain ⟨allSent, c', hrun⟩ := sendPeople_run T C U c people frameNumber hrange
  obtain ⟨sent, hsent, hall⟩ := sendPeopleLoop_each T C U (fun _ => True)
    (fun p q => q.params.lookup "neutral" = some "0" ∧
      ∀ e0 e1 e2 e3 e4 e5, p.getEmotions = [e0, e1, e2, e3, e4, e5] →
        q.params.lookup "happy" = some (U.getStringFromInt (U.toPercent e0)) ∧
        q.params.lookup "surprised" = some (U.getStringFromInt (U.toPercent e1)) ∧
        q.params.lookup "angry" = some (U.getStringFromInt (U.toPercent e2)) ∧
        q.params.lookup "disgusted" = some (U.getStringFromInt (U.toPercent e3)) ∧
        q.params.lookup "afraid" = some (U.getStringFromInt (U.toPercent e4)) ∧
        q.params.lookup "sad" = some (U.getStringFromInt (U.toPercent e5)))
    (by
      intro request person mapped handle issued _ _ hmapped
      obtain ⟨_, _, _, hneutral, d0, d1, d2, d3, d4, d5, rest, hE, h0, h1, h2, h3, h4, h5⟩ :=
        mapFields_fields U request mapped person hmapped
      refine ⟨trivial, hneutral, ?_⟩
      intro e0 e1 e2 e3 e4 e5 hsix
      rw [hE] at hsix
      simp only [List.cons.injEq] at hsix
      obtain ⟨rfl, rfl, rfl, rfl, rfl, rfl, _⟩ := hsix
      exact ⟨h0, h1, h2, h3, h4, h5⟩)
    people _ _ _ _ _ trivial hrun
  exact ⟨allSent, c', sent, hrun, hsent, hall⟩

/-- C15 on a batch of two records. -/
theorem sendPeople_emotions_positional_witness :
    ∃ (allSent : Bool) (c' : Client (List (Bool × Response))) (sent : List RequestRecord),
      Client.sendPeople demoConnection demoCodec demoUtil (demoActive demoSession)
        [demoPerson "a" demoColors, demoPerson "b" []] 7 = some (allSent, c') ∧
      c'.requests = (demoActive demoSession).requests ++ sent ∧
      List.Forall₂
        (fun p q => q.params.lookup "neutral" = some "0" ∧
          ∀ e0 e1 e2 e3 e4 e5, p.getEmotions = [e0, e1, e2, e3, e4, e5] →
            q.params.lookup "happy" =
              some (demoUtil.getStringFromInt (demoUtil.toPercent e0)) ∧
            q.params.lookup "surprised" =
              some (demoUtil.getStringFromInt (demoUtil.toPercent e1)) ∧
            q.params.lookup "angry" =
              some (demoUtil.getStringFromInt (demoUtil.toPercent e2)) ∧
            q.params.lookup "disgusted" =
              some (demoUtil.getStringFromInt (demoUtil.toPercent e3)) ∧
            q.params.lookup "afraid" =
              some (demoUtil.getStringFromInt (demoUtil.toPercent e4)) ∧
            q.params.lookup "sad" =
              some (demoUtil.getStringFromInt (demoUtil.toPercent e5)))
        (withIdentifier [demoPerson "a" demoColors, demoPerson "b" []]) sent :=
  sendPeople_emotions_positional demoConnection demoCodec demoUtil (demoActive demoSession)
    [demoPerson "a" demoColors, demoPerson "b" []] 7 (by decide)

/-- C20: with out-of-range reads modelled as failure, the field mapping of
`Client::sendPeople` succeeds for every record with six emotion scores and a
clothing-colour list that is empty or has at least three colours, each of three
components; for a non-empty list of fewer than three colours it fails (the
out-of-range read is reached). -/
theorem mapFields_in_range (U : Util) (request : TRequest) (person : Person) :
    (person.getEmotions.length = 6 →
      (person.getClothingColors = [] ∨
        (3 ≤ person.getClothingColors.length ∧
          ∀ color ∈ person.getClothingColors, color.length = 3)) →
      (mapFields U request person).isSome = true) ∧
    (person.getClothingColors ≠ [] → person.getClothingColors.length < 3 →
      mapFields U request person = none) := by
  constructor
  · intro hemotions hcolors
    apply mapFields_isSome
    unfold recordInRange
    simp only [Bool.and_eq_true, Bool.or_eq_true, decide_eq_true_eq, hemotions, le_refl,
      true_and]
    rcases hcolors with hnil | ⟨hlen, hall⟩
    · left
      simp [hnil]
    · right
      refine ⟨hlen, ?_⟩
      rw [List.all_eq_true]
      intro color hcolor
      have := hall color (List.mem_of_mem_take hcolor)
      simp [this]
  · intro hne hlen
    rcases hC : person.getClothingColors with _ | ⟨k0, _ | ⟨k1, _ | ⟨k2, more⟩⟩⟩
    · exact absurd hC hne
    · rcases hE : person.getEmotions with
        _ | ⟨e0, _ | ⟨e1, _ | ⟨e2, _ | ⟨e3, _ | ⟨e4, _ | ⟨e5, rest⟩⟩⟩⟩⟩⟩ <;>
        simp [mapFields, hE, hC]
    · rcases hE : person.getEmotions with
        _ | ⟨e0, _ | ⟨e1, _ | ⟨e2, _ | ⟨e3, _ | ⟨e4, _ | ⟨e5, rest⟩⟩⟩⟩⟩⟩ <;>
        simp [mapFields, hE, hC]
    · rw [hC] at hlen
      simp only [List.length_cons] at hlen
      omega

/-- C20 on concrete records: three colours are mapped, two are not. -/
theorem mapFields_in_range_witness :
    (mapFields demoUtil [] (demoPerson "a" demoColors)).isSome = true ∧
      mapFields demoUtil [] (demoPerson "a" [[255, 0, 0], [0, 128, 0]]) = none :=
  ⟨(mapFields_in_range demoUtil [] (demoPerson "a" demoColors)).1 (by decide)
      (Or.inr (by decide)),
    (mapFields_in_range demoUtil [] (demoPerson "a" [[255, 0, 0], [0, 128, 0]])).2
      (by decide) (by decide)⟩

/-! ## Batches -/

theorem cleanUpResponses_eq (queue rel : List Nat) :
    cleanUpResponses queue rel = ([], rel ++ queue) := by
  induction queue generalizing rel with
  | nil => simp [cleanUpResponses]
  | cons h rest ih => simp [cleanUpResponses, ih]

/-- C19 at a failing input: on a transport that refuses the request for the
only record of the batch, `sendPeople` creates one response object (the count
goes from 1 to 2) that is neither in the pending queue nor released when the
call returns. -/
theorem sendPeople_leaks_refused_envelope :
    (demoActive demoRefused).created = 1 ∧
    (demoActive demoRefused).released = [] ∧
    (demoActive demoRefused).serverResponses = [] ∧
    (Client.sendPeople demoConnection demoCodec demoUtil (demoActive demoRefused)
        [demoPerson "a" []] 7).map
        (fun r => (r.1, r.2.created, r.2.released, r.2.serverResponses)) =
      some (false, 2, [], []) := by
  refine ⟨rfl, rfl, rfl, by decide⟩

end SDKclient
